import Mathlib

/-
  Verification development for the SigDigger UI components
  (src/Components/PanoramicDialog.cpp, src/Components/MainSpectrum.cpp).

  The C++ code is shallowly embedded: machine integers qint64/quint64 are
  modelled as Int/Nat (with an explicit wrap-around cast where a
  quint64 -> qint64 conversion occurs), float/double values as Rat, and
  the Qt / Suscan collaborator objects as explicit state records.
-/

namespace SigDigger

/-! ### Suscan object store

Modelled from the spec: "a structured configuration object store
(serialize/deserialize typed fields)".  The Suscan::Object class itself is
not part of the given sources; it is modelled as an ordered list of named,
typed fields.  get(name, default) returns the stored value when a field of
that name and type exists and the default otherwise; set(name, v) appends
a field. -/

inductive SVal where
  | vb : Bool → SVal
  | vi : Int → SVal
  | vf : Rat → SVal
  | vs : String → SVal
deriving DecidableEq

abbrev SObject := List (String × SVal)

/-- Association-list lookup keyed by strings (first match wins). -/
def alookup {α : Type} (k : String) : List (String × α) → Option α
  | [] => none
  | p :: rest => if p.1 = k then some p.2 else alookup k rest

def objGetB (o : SObject) (name : String) (dflt : Bool) : Bool :=
  match alookup name o with
  | some (.vb v) => v
  | _ => dflt

def objGetI (o : SObject) (name : String) (dflt : Int) : Int :=
  match alookup name o with
  | some (.vi v) => v
  | _ => dflt

def objGetF (o : SObject) (name : String) (dflt : Rat) : Rat :=
  match alookup name o with
  | some (.vf v) => v
  | _ => dflt

def objGetS (o : SObject) (name : String) (dflt : String) : String :=
  match alookup name o with
  | some (.vs v) => v
  | _ => dflt

def objSet (o : SObject) (name : String) (v : SVal) : SObject :=
  o ++ [(name, v)]

/-! ### std::map<std::string, SUFLOAT> model

A finite map modelled as an association list with distinct keys:
insertion replaces the value in place when the key is present and appends
otherwise (iteration order of std::map is abstracted away; no claim
depends on it). -/

def mapInsert (k : String) (v : Rat) : List (String × Rat) → List (String × Rat)
  | [] => [(k, v)]
  | p :: rest => if p.1 = k then (k, v) :: rest else p :: mapInsert k v rest

/-! ### PanoramicDialogConfig (PanoramicDialog.cpp lines 67-153) -/

structure PanoramicDialogConfig where
  fullRange : Bool
  rangeMin : Rat
  rangeMax : Rat
  panRangeMin : Rat
  panRangeMax : Rat
  lnbFreq : Rat
  device : String
  sampRate : Int
  strategy : String
  partitioning : String
  palette : String
  gains : List (String × Rat)
deriving DecidableEq

namespace PanoramicDialogConfig

/-- Body of the gains loop of PanoramicDialogConfig::deserialize: a field
whose name starts with "gain." is inserted into the gains map with the
value conf.get(name, 0). -/
def gainField (conf : SObject) (acc : PanoramicDialogConfig) (fld : String × SVal) :
    PanoramicDialogConfig :=
  if fld.1.take 5 = "gain."
  then { acc with gains := mapInsert fld.1 (objGetF conf fld.1 0) acc.gains }
  else acc

/-- PanoramicDialogConfig::deserialize: LOAD each typed field (defaulting to
the current value), then pick up every field whose name starts with
"gain." into the gains map. -/
def deserialize (c : PanoramicDialogConfig) (conf : SObject) : PanoramicDialogConfig :=
  let c :=
    { c with
      fullRange := objGetB conf "fullRange" c.fullRange
      rangeMin := objGetF conf "rangeMin" c.rangeMin
      rangeMax := objGetF conf "rangeMax" c.rangeMax
      panRangeMin := objGetF conf "panRangeMin" c.panRangeMin
      panRangeMax := objGetF conf "panRangeMax" c.panRangeMax
      lnbFreq := objGetF conf "lnbFreq" c.lnbFreq
      device := objGetS conf "device" c.device
      sampRate := objGetI conf "sampRate" c.sampRate
      strategy := objGetS conf "strategy" c.strategy
      partitioning := objGetS conf "partitioning" c.partitioning
      palette := objGetS conf "palette" c.palette }
  conf.foldl (gainField conf) c

/-- PanoramicDialogConfig::serialize: STORE each typed field, then emit every
gains-map entry under its map key. -/
def serialize (c : PanoramicDialogConfig) : SObject :=
  let o : SObject := []
  let o := objSet o "fullRange" (.vb c.fullRange)
  let o := objSet o "rangeMin" (.vf c.rangeMin)
  let o := objSet o "rangeMax" (.vf c.rangeMax)
  let o := objSet o "panRangeMin" (.vf c.panRangeMin)
  let o := objSet o "panRangeMax" (.vf c.panRangeMax)
  let o := objSet o "lnbFreq" (.vf c.lnbFreq)
  let o := objSet o "sampRate" (.vi c.sampRate)
  let o := objSet o "device" (.vs c.device)
  let o := objSet o "strategy" (.vs c.strategy)
  let o := objSet o "partitioning" (.vs c.partitioning)
  let o := objSet o "palette" (.vs c.palette)
  c.gains.foldl (fun acc p => objSet acc p.1 (.vf p.2)) o

/-- PanoramicDialogConfig::hasGain. -/
def hasGain (c : PanoramicDialogConfig) (dev name : String) : Bool :=
  let fullName := "gain." ++ dev ++ "." ++ name
  (alookup fullName c.gains).isSome

/-- PanoramicDialogConfig::getGain (returns 0 when the key is absent). -/
def getGain (c : PanoramicDialogConfig) (dev name : String) : Rat :=
  let fullName := "gain." ++ dev ++ "." ++ name
  match alookup fullName c.gains with
  | some v => v
  | none => 0

/-- PanoramicDialogConfig::setGain. -/
def setGain (c : PanoramicDialogConfig) (dev name : String) (val : Rat) :
    PanoramicDialogConfig :=
  let fullName := "gain." ++ dev ++ "." ++ name
  { c with gains := mapInsert fullName val c.gains }

/-- The eleven typed fields emitted by serialize, in STORE order. -/
def cfgFields (c : PanoramicDialogConfig) : SObject :=
  [("fullRange", .vb c.fullRange),
   ("rangeMin", .vf c.rangeMin),
   ("rangeMax", .vf c.rangeMax),
   ("panRangeMin", .vf c.panRangeMin),
   ("panRangeMax", .vf c.panRangeMax),
   ("lnbFreq", .vf c.lnbFreq),
   ("sampRate", .vi c.sampRate),
   ("device", .vs c.device),
   ("strategy", .vs c.strategy),
   ("partitioning", .vs c.partitioning),
   ("palette", .vs c.palette)]

end PanoramicDialogConfig

/-! ### Machine-integer casts -/

/-- The C++ static_cast from quint64 to qint64 (two's-complement wrap). -/
def i64ofU64 (n : Nat) : Int :=
  let m : Nat := n % 2 ^ 64
  if m < 2 ^ 63 then (m : Int) else (m : Int) - 2 ^ 64

/-- The C++ static_cast from a (double-valued) rational to qint64:
truncation toward zero. -/
def i64ofRat (q : Rat) : Int :=
  if 0 ≤ q then q.floor else q.ceil

/-! ### SavedSpectrum (PanoramicDialog.cpp lines 33-65) -/

structure SavedSpectrum where
  start : Int
  endFreq : Int
  data : List Rat
deriving DecidableEq

namespace SavedSpectrum

/-- SavedSpectrum::set — data.assign(data, data + size) copies the first
size samples of the incoming buffer. -/
def set (_s : SavedSpectrum) (start endv : Int) (data : List Rat) (size : Nat) :
    SavedSpectrum :=
  { start := start, endFreq := endv, data := data.take size }

/-- One item written to the export stream, in stream-insertion order. -/
inductive WriteItem where
  | comment (text : String)
  | freqMinDecl (v : Int)
  | freqMaxDecl (v : Int)
  | psdOpen
  | sample (v : Rat)
  | psdClose
deriving DecidableEq

/-- The PSD sample carried by a written item, when it is one. -/
def sampleValue : WriteItem → Option Rat
  | .sample v => some v
  | _ => none

/-- SavedSpectrum::exportToFile.  Modelled from the spec: the std::ofstream
file system is reduced to whether the output file can be opened (canOpen);
the returned list is the sequence of stream insertions performed. -/
def exportToFile (s : SavedSpectrum) (canOpen : Bool) : Bool × List WriteItem :=
  if canOpen then
    (true,
      [.comment "%",
       .comment "% Panoramic Spectrum file generated by SigDigger",
       .comment "%",
       .freqMinDecl s.start,
       .freqMaxDecl s.endFreq,
       .psdOpen]
      ++ s.data.map .sample
      ++ [.psdClose])
  else (false, [])

end SavedSpectrum

/-! ### PanoramicDialog::onExport (lines 998-1028)

Modelled from the spec: the QFileDialog / QMessageBox interaction is
reduced to a list of user actions, one per loop iteration: either the
user cancels the file dialog, or picks a file (whose openability decides
the export outcome). -/

inductive UserAction where
  | cancel
  | save (canOpen : Bool)
deriving DecidableEq

structure ExportTrace where
  dialogs : Nat
  warnings : Nat
  exported : Bool
  finished : Bool
deriving DecidableEq

/-- PanoramicDialog::onExport — the do/while retry loop.  An exhausted
action list means the loop is still waiting for user input
(finished = false). -/
def onExport (s : SavedSpectrum) : List UserAction → ExportTrace
  | [] => { dialogs := 0, warnings := 0, exported := false, finished := false }
  | .cancel :: _ =>
      { dialogs := 1, warnings := 0, exported := false, finished := true }
  | .save canOpen :: rest =>
      if (s.exportToFile canOpen).1 then
        { dialogs := 1, warnings := 0, exported := true, finished := true }
      else
        let t := onExport s rest
        { dialogs := t.dialogs + 1, warnings := t.warnings + 1,
          exported := t.exported, finished := t.finished }

/-! ### PanoramicDialog zoom / sweep state (lines 352-523, 869-915)

The waterfall widget is an external collaborator; its getters and setters
are modelled as plain state fields and recorded commands.  The double
valued spin boxes hold integral frequencies in Hz and are modelled as
Int. -/

inductive WfCmd where
  | setSampleRate (bw : Int)
  | setCenterFreq (fc : Int)
  | setLocked (locked : Bool)
  | setDemodRanges (a b c d : Int) (symmetric : Bool)
  | setHiLowCut (lo hi : Int)
  | resetHorizontalZoom
deriving DecidableEq

structure PanState where
  wfCenterFreq : Int
  wfFftCenterFreq : Int
  wfSpanFreq : Int
  rangeStartSpinValue : Int
  rangeEndSpinValue : Int
  relBwSliderValue : Int
  minBwForZoom : Nat
  adjustingRange : Bool
  fixedFreqMode : Bool
  currBw : Int
  freqStart : Nat
  freqEnd : Nat
  saved : SavedSpectrum
  frames : Nat
  exportEnabled : Bool
deriving DecidableEq

namespace PanState

/-- PanoramicDialog::getMinFreq — rangeStartSpin value. -/
def getMinFreq (st : PanState) : Int := st.rangeStartSpinValue

/-- PanoramicDialog::getMaxFreq — rangeEndSpin value. -/
def getMaxFreq (st : PanState) : Int := st.rangeEndSpinValue

/-- PanoramicDialog::getRelBw — relBwSlider value / 100. -/
def getRelBw (st : PanState) : Rat := (st.relBwSliderValue : Rat) / 100

/-- PanoramicDialog::setWfRange.  Returns the updated state and the
commands sent to the waterfall widget. -/
def setWfRange (st : PanState) (freqStart freqEnd : Int) :
    PanState × List WfCmd :=
  if st.fixedFreqMode then
    let bw : Int := (st.minBwForZoom : Int)
    if bw ≠ st.currBw then
      ({ st with currBw := bw }, [.setSampleRate bw])
    else (st, [])
  else
    let fc : Int := (freqEnd + freqStart).tdiv 2
    let bw : Int := freqEnd - freqStart
    if bw ≠ st.currBw then
      ({ st with currBw := bw },
        [.setCenterFreq fc,
         .setLocked false,
         .setSampleRate bw,
         .setDemodRanges (-(bw.tdiv 2)) 0 0 (bw.tdiv 2) true,
         .setHiLowCut (-(bw.tdiv 20)) (bw.tdiv 20),
         .resetHorizontalZoom])
    else (st, [.setCenterFreq fc])

/-- Observable effects of one onNewZoomLevel invocation. -/
structure ZoomEffects where
  wfCmds : List WfCmd
  wfRangeCall : Option (Int × Int)
  detail : Option (Int × Int × Bool)
deriving DecidableEq

/-- PanoramicDialog::onNewZoomLevel.  detail carries the qint64 values
passed to the detailChanged emission (the cast to quint64 in the emit is
a bijection on the represented values). -/
def onNewZoomLevel (st : PanState) : PanState × ZoomEffects :=
  let fc : Int := |st.wfCenterFreq + st.wfFftCenterFreq|
  let span : Int := st.wfSpanFreq
  if st.adjustingRange then
    (st, { wfCmds := [], wfRangeCall := none, detail := none })
  else
    let st := { st with adjustingRange := true }
    let min0 : Int := fc - span.tdiv 2
    let max0 : Int := fc + span.tdiv 2
    let adjLeft : Bool := decide (min0 < st.getMinFreq)
    let min1 : Int := if min0 < st.getMinFreq then st.getMinFreq else min0
    let adjRight : Bool := decide (max0 > st.getMaxFreq)
    let max1 : Int := if max0 > st.getMaxFreq then st.getMaxFreq else max0
    let resetCmds : List WfCmd :=
      if adjLeft && adjRight then [.resetHorizontalZoom] else []
    let fixed : Bool :=
      decide (((max1 - min1 : Int) : Rat) ≤ (st.minBwForZoom : Rat) * st.getRelBw)
    let st := { st with fixedFreqMode := fixed }
    let min2 : Int := if fixed then st.wfCenterFreq - span.tdiv 2 else min1
    let max2 : Int := if fixed then st.wfCenterFreq + span.tdiv 2 else max1
    let ranged := st.setWfRange min2 max2
    let st := { ranged.1 with adjustingRange := false }
    (st,
      { wfCmds := resetCmds ++ ranged.2,
        wfRangeCall := some (min2, max2),
        detail := some (min2, max2, fixed) })

/-- Observable effects of one feed invocation. -/
structure FeedEffects where
  wfCmds : List WfCmd
  newFftData : List Rat
deriving DecidableEq

/-- PanoramicDialog::feed. -/
def feed (st : PanState) (freqStart freqEnd : Nat) (data : List Rat)
    (size : Nat) : PanState × FeedEffects :=
  let ranged :=
    if st.freqStart ≠ freqStart ∨ st.freqEnd ≠ freqEnd then
      let st := { st with freqStart := freqStart, freqEnd := freqEnd,
                          adjustingRange := true }
      let ranged := st.setWfRange (i64ofU64 freqStart) (i64ofU64 freqEnd)
      ({ ranged.1 with adjustingRange := false }, ranged.2)
    else (st, ([] : List WfCmd))
  let st :=
    { ranged.1 with
      saved := ranged.1.saved.set (i64ofU64 freqStart) (i64ofU64 freqEnd) data size
      exportEnabled := true
      frames := ranged.1.frames + 1 }
  (st, { wfCmds := ranged.2, newFftData := data.take size })

end PanState

/-! ### PanoramicDialog::onToggleScan (lines 840-867) -/

inductive ScanEvent where
  | start
  | stop
deriving DecidableEq

structure ScanState where
  scanChecked : Bool
  bannedDevice : String
  /-- Description of the device the deviceCombo currently selects, when
  the combo text is found in the device map; getSelectedDevice leaves the
  default-constructed device (empty description) otherwise. -/
  selectedDesc : Option String
deriving DecidableEq

structure ScanResult where
  events : List ScanEvent
  msgBoxShown : Bool
  st : ScanState
  buttonText : String
deriving DecidableEq

/-- Description obtained by getSelectedDevice into a default-constructed
device: empty when no device is selected. -/
def selectedDescOrDefault (st : ScanState) : String :=
  st.selectedDesc.getD ""

/-- PanoramicDialog::onToggleScan. -/
def onToggleScan (st : ScanState) : ScanResult :=
  if st.scanChecked then
    let desc := selectedDescOrDefault st
    if 0 < st.bannedDevice.length ∧ desc = st.bannedDevice then
      let st := { st with scanChecked := false }
      { events := [], msgBoxShown := true, st := st,
        buttonText := if st.scanChecked then "Stop" else "Start scan" }
    else
      { events := [.start], msgBoxShown := false, st := st,
        buttonText := if st.scanChecked then "Stop" else "Start scan" }
  else
    { events := [.stop], msgBoxShown := false, st := st,
      buttonText := if st.scanChecked then "Stop" else "Start scan" }

/-! ### Gain panel (lines 689-766) -/

structure GainInfo where
  name : String
  defaultVal : Rat
deriving DecidableEq

structure Device where
  desc : String
  driver : String
  gains : List GainInfo
deriving DecidableEq

structure GainControl where
  name : String
  gain : Rat
deriving DecidableEq

structure GainPanelState where
  gainControls : List GainControl
  noGainLabel : Bool
deriving DecidableEq

/-- PanoramicDialog::clearGains — removes every gain control (and the
placeholder label) from the panel. -/
def clearGains (_st : GainPanelState) : GainPanelState :=
  { gainControls := [], noGainLabel := false }

/-- One DeviceGain control as constructed and initialized by
PanoramicDialog::refreshGains: setGain from the persisted config value
when hasGain(driver, name), and from the gain default otherwise. -/
def mkGainControl (cfg : PanoramicDialogConfig) (driver : String)
    (g : GainInfo) : GainControl :=
  { name := g.name
    gain :=
      if cfg.hasGain driver g.name
      then cfg.getGain driver g.name
      else g.defaultVal }

/-- PanoramicDialog::refreshGains — clearGains, then one DeviceGain per
device gain in list order, initialized from the persisted config when
present and from the gain default otherwise; a placeholder label when the
device has no gains. -/
def refreshGains (cfg : PanoramicDialogConfig) (dev : Device)
    (st : GainPanelState) : GainPanelState :=
  let st := clearGains st
  let st := dev.gains.foldl
    (fun s g =>
      { s with gainControls := s.gainControls ++ [mkGainControl cfg dev.driver g] })
    st
  if st.gainControls.length = 0 then { st with noGainLabel := true } else st

/-! ### Strategy / partitioning combos (lines 384-396) -/

structure StrategyUiState where
  walkStrategyText : String
  partitioningText : String
deriving DecidableEq

/-- PanoramicDialog::getStrategy — walkStrategyCombo current text. -/
def getStrategy (st : StrategyUiState) : String := st.walkStrategyText

/-- PanoramicDialog::getPartitioning. -/
def getPartitioning (st : StrategyUiState) : String :=
  if getStrategy st = "Progressive" then "Discrete"
  else st.partitioningText

/-! ### MainSpectrum (MainSpectrum.cpp)

Modelled from the spec: the LCD frequency widgets (fcLcd, loLcd, lnbLcd)
are not part of the given sources; per the external-interface description
they are modelled as stored value/min/max triples whose setters record
and whose getters return the stored values. -/

structure LcdState where
  value : Int
  minv : Int
  maxv : Int
deriving DecidableEq

structure MainSpecState where
  fcLcd : LcdState
  loLcd : LcdState
  lnbLcd : LcdState
  minFreq : Int
  maxFreq : Int
  cachedRate : Nat
  zoom : Nat
  wfCenterFreq : Int
  wfFreqUnits : Int
  wfFilterOffset : Int
deriving DecidableEq

namespace MainSpecState

/-- MainSpectrum::getCenterFreq. -/
def getCenterFreq (st : MainSpecState) : Int := st.fcLcd.value

/-- MainSpectrum::getLoFreq. -/
def getLoFreq (st : MainSpecState) : Int := st.loLcd.value - st.getCenterFreq

/-- MainSpectrum::getLnbFreq. -/
def getLnbFreq (st : MainSpecState) : Int := st.lnbLcd.value

/-- MainSpectrum::getFrequencyUnits. -/
def getFrequencyUnits (freq : Int) : Int :=
  let freq := if freq < 0 then -freq else freq
  if freq < 1000 then 1
  else if freq < 1000000 then 1000
  else if freq < 1000000000 then 1000000
  else 1000000000

/-- MainSpectrum::updateLimits. -/
def updateLimits (st : MainSpecState) : MainSpecState :=
  let minLcd : Int := st.minFreq - st.getLnbFreq
  let maxLcd : Int := st.maxFreq - st.getLnbFreq
  let st := { st with fcLcd := { st.fcLcd with minv := minLcd, maxv := maxLcd } }
  let minLcd : Int := st.fcLcd.value - (st.cachedRate : Int).tdiv 2
  let maxLcd : Int := st.fcLcd.value + (st.cachedRate : Int).tdiv 2
  { st with loLcd := { st.loLcd with minv := minLcd, maxv := maxLcd } }

/-- MainSpectrum::setLoFreq (loChanged signal emission not modelled: it
carries the argument and does not touch component state). -/
def setLoFreq (st : MainSpecState) (loFreq : Int) : MainSpecState :=
  if loFreq ≠ st.getLoFreq then
    let st := { st with loLcd := { st.loLcd with value := loFreq + st.getCenterFreq } }
    { st with wfFilterOffset := loFreq }
  else st

/-- MainSpectrum::setCenterFreq. -/
def setCenterFreq (st : MainSpecState) (freq : Int) : MainSpecState :=
  let loFreq : Int := st.getLoFreq
  let st := { st with fcLcd := { st.fcLcd with value := freq } }
  let st := { st with wfCenterFreq := freq }
  let st := { st with wfFreqUnits := getFrequencyUnits freq }
  let st := st.updateLimits
  st.setLoFreq loFreq

end MainSpecState

/-! ### Frequency allocation tables (MainSpectrum.cpp lines 435-492) -/

structure FrequencyBand where
  bandMin : Int
  bandMax : Int
  primary : String
  secondary : String
  footnotes : String
  color : String
deriving DecidableEq

structure FrequencyAllocationTable where
  name : String
  bands : List FrequencyBand
deriving DecidableEq

/-- One member of the "bands" SET of a frequency allocation table object.
Modelled from the spec: a Suscan::Object member is either an object with
typed fields, or some malformed value whose typed accessors raise
Suscan::Exception ("malformed band-plan entries are skipped
individually"). -/
inductive FatVal where
  | fobj (fields : SObject)
  | malformed
deriving DecidableEq

/-- MainSpectrum::deserializeFrequencyBand.  Raises (Except.error) exactly
when the entry is not an object. -/
def deserializeFrequencyBand : FatVal → Except Unit FrequencyBand
  | .fobj fields =>
      .ok
        { bandMin := i64ofRat (objGetF fields "min" 0)
          bandMax := i64ofRat (objGetF fields "max" 0)
          primary := objGetS fields "primary" ""
          secondary := objGetS fields "secondary" ""
          footnotes := objGetS fields "footnotes" ""
          color := objGetS fields "color" "#1f1f1f" }
  | .malformed => .error ()

/-- The per-table band loop of MainSpectrum::deserializeFATs: push each
band that deserializes, swallowing the Suscan::Exception of the ones
that do not. -/
def pushBandsLoop (fat : FrequencyAllocationTable) (l : List FatVal) :
    FrequencyAllocationTable :=
  l.foldl
    (fun f o =>
      match deserializeFrequencyBand o with
      | .ok b => { f with bands := f.bands ++ [b] }
      | .error _ => f)
    fat

/-- The "bands" field of a FAT source object: either a SET of members or
a value of some other type (SU_ATTEMPT on the type check throws). -/
inductive BandsField where
  | set (elems : List FatVal)
  | notSet
deriving DecidableEq

/-- One FAT source object, as read from the Suscan singleton. -/
structure FatSrc where
  name : String
  bands : BandsField
deriving DecidableEq

/-- Processing of a single FAT source with a SET bands field: the created
table and the newBandPlan signal payload. -/
def processFat (name : String) (l : List FatVal) :
    FrequencyAllocationTable × String :=
  (pushBandsLoop { name := name, bands := [] } l, name)

/-- The members of a bands field when it is a SET (empty otherwise). -/
def bandsElems : BandsField → List FatVal
  | .set l => l
  | .notSet => []

/-- One iteration of the outer loop of MainSpectrum::deserializeFATs:
create and register the table, process its bands, emit newBandPlan; the
SU_ATTEMPT on the set-type check throws on a non-SET bands field. -/
def fatStep (acc : List FrequencyAllocationTable × List String)
    (src : FatSrc) :
    Except Unit (List FrequencyAllocationTable × List String) :=
  match src.bands with
  | .set l =>
      let done := processFat src.name l
      .ok (acc.1 ++ [done.1], acc.2 ++ [done.2])
  | .notSet => .error ()

/-- MainSpectrum::deserializeFATs over the singleton FAT list: the
registered tables and the emitted newBandPlan signals, or an error when a
bands field fails the SU_ATTEMPT set-type check. -/
def deserializeFATs (srcs : List FatSrc) :
    Except Unit (List FrequencyAllocationTable × List String) :=
  srcs.foldlM fatStep
    (([], []) : List FrequencyAllocationTable × List String)

/-! ### Concrete sample states used by witnesses and counterexamples -/

/-- A default-constructed PanoramicDialogConfig with an empty gains map. -/
def cfgEmpty : PanoramicDialogConfig :=
  { fullRange := false, rangeMin := 0, rangeMax := 0, panRangeMin := 0,
    panRangeMax := 0, lnbFreq := 0, device := "", sampRate := 0,
    strategy := "", partitioning := "", palette := "", gains := [] }

/-- A populated sample config with one per-device gain entry. -/
def cfgSample : PanoramicDialogConfig :=
  { fullRange := true, rangeMin := 1, rangeMax := 2, panRangeMin := 3,
    panRangeMax := 4, lnbFreq := 5, device := "dummy", sampRate := 20000000,
    strategy := "Stochastic", partitioning := "Continuous",
    palette := "Suscan", gains := [("gain.rtlsdr.LNA", 20)] }

/-- Panoramic dialog state near the upper device bound: zooming triggers
fixed-frequency mode with the recomputed span exceeding the bound. -/
def zoomSt0 : PanState :=
  { wfCenterFreq := 100, wfFftCenterFreq := 0, wfSpanFreq := 50,
    rangeStartSpinValue := 0, rangeEndSpinValue := 110,
    relBwSliderValue := 100, minBwForZoom := 200,
    adjustingRange := false, fixedFreqMode := false, currBw := 0,
    freqStart := 0, freqEnd := 0, saved := ⟨0, 0, []⟩, frames := 0,
    exportEnabled := false }

/-- Panoramic dialog state that stays in sliding-range mode on zoom. -/
def zoomSt1 : PanState :=
  { wfCenterFreq := 50, wfFftCenterFreq := 0, wfSpanFreq := 20,
    rangeStartSpinValue := 0, rangeEndSpinValue := 110,
    relBwSliderValue := 100, minBwForZoom := 10,
    adjustingRange := false, fixedFreqMode := false, currBw := 0,
    freqStart := 0, freqEnd := 0, saved := ⟨0, 0, []⟩, frames := 0,
    exportEnabled := false }

end SigDigger

open SigDigger

/-! ## Claim theorems -/

/-- C10: whenever the current walk strategy is "Progressive",
PanoramicDialog::getPartitioning returns "Discrete" regardless of the
partitioning combo text; for every other strategy it returns the
partitioning combo's current text. -/
theorem partitioning_progressive_discrete (st : StrategyUiState) :
    (getStrategy st = "Progressive" → getPartitioning st = "Discrete") ∧
    (getStrategy st ≠ "Progressive" → getPartitioning st = st.partitioningText) := by
  refine ⟨fun h => ?_, fun h => ?_⟩ <;> simp [getPartitioning, h]

/-- Witness for partitioning_progressive_discrete at concrete combo texts. -/
theorem partitioning_progressive_discrete_witness :
    getPartitioning ⟨"Progressive", "Continuous"⟩ = "Discrete" ∧
    getPartitioning ⟨"Stochastic", "Continuous"⟩ = "Continuous" :=
  ⟨(partitioning_progressive_discrete ⟨"Progressive", "Continuous"⟩).1 rfl,
   (partitioning_progressive_discrete ⟨"Stochastic", "Continuous"⟩).2 (by decide)⟩

/-- C4: in PanoramicDialog::onToggleScan, a checked toggle with a non-empty
banned device equal to the selected device's description emits no start,
shows a message box and unchecks the button; any other checked toggle emits
start; an unchecked toggle emits stop. -/
theorem toggleScan_banned_device_blocks (st : ScanState) :
    (st.scanChecked = true →
      (0 < st.bannedDevice.length ∧ selectedDescOrDefault st = st.bannedDevice) →
      (onToggleScan st).events = [] ∧ (onToggleScan st).msgBoxShown = true ∧
        (onToggleScan st).st.scanChecked = false) ∧
    (st.scanChecked = true →
      ¬(0 < st.bannedDevice.length ∧ selectedDescOrDefault st = st.bannedDevice) →
      (onToggleScan st).events = [ScanEvent.start] ∧
        (onToggleScan st).msgBoxShown = false) ∧
    (st.scanChecked = false → (onToggleScan st).events = [ScanEvent.stop]) := by
  refine ⟨fun hc hb => ?_, fun hc hb => ?_, fun hc => ?_⟩
  · simp [onToggleScan, hc, hb]
  · simp [onToggleScan, hc, hb]
  · simp [onToggleScan, hc]

/-- Witness for toggleScan_banned_device_blocks on the three concrete cases. -/
theorem toggleScan_banned_device_blocks_witness :
    ((onToggleScan ⟨true, "dev A", some "dev A"⟩).events = [] ∧
      (onToggleScan ⟨true, "dev A", some "dev A"⟩).msgBoxShown = true ∧
      (onToggleScan ⟨true, "dev A", some "dev A"⟩).st.scanChecked = false) ∧
    (onToggleScan ⟨true, "", some "dev A"⟩).events = [ScanEvent.start] ∧
    (onToggleScan ⟨false, "dev A", none⟩).events = [ScanEvent.stop] :=
  ⟨(toggleScan_banned_device_blocks ⟨true, "dev A", some "dev A"⟩).1 rfl
      (by exact ⟨by decide, rfl⟩),
   ((toggleScan_banned_device_blocks ⟨true, "", some "dev A"⟩).2.1 rfl
      (by simp [selectedDescOrDefault])).1,
   (toggleScan_banned_device_blocks ⟨false, "dev A", none⟩).2.2 rfl⟩

/-- C9: MainSpectrum::setCenterFreq preserves the LO offset — getLoFreq
after the call equals getLoFreq before it. -/
theorem setCenterFreq_preserves_loFreq (st : MainSpecState) (freq : Int) :
    (st.setCenterFreq freq).getLoFreq = st.getLoFreq := by
  simp only [MainSpecState.setCenterFreq, MainSpecState.updateLimits,
    MainSpecState.setLoFreq, MainSpecState.getLoFreq, MainSpecState.getCenterFreq,
    MainSpecState.getLnbFreq]
  split
  · simp
  · next h =>
      simp only [ne_eq, not_not] at h
      simp
      omega

/-- The quint64-to-qint64 cast is the identity on values below 2^63. -/
theorem i64ofU64_of_lt (n : Nat) (h : n < 2 ^ 63) : i64ofU64 n = (n : Int) := by
  unfold i64ofU64
  have h64 : n % 2 ^ 64 = n := Nat.mod_eq_of_lt (by omega)
  rw [h64, if_pos h]

/-- C7: PanoramicDialog::feed replaces the saved spectrum with exactly the
incoming frame — start, end and the first size samples of the buffer —
independently of the previously saved frame and of whether the frequency
range changed. -/
theorem feed_replaces_saved_spectrum (st : PanState) (fs fe : Nat)
    (data : List Rat) (size : Nat) (h1 : fs < 2 ^ 63) (h2 : fe < 2 ^ 63) :
    (st.feed fs fe data size).1.saved =
      { start := (fs : Int), endFreq := (fe : Int), data := data.take size } := by
  simp only [PanState.feed, SavedSpectrum.set, i64ofU64_of_lt fs h1,
    i64ofU64_of_lt fe h2]

/-- Witness for feed_replaces_saved_spectrum at a concrete frame, fed on
top of a state that already holds a previous frame. -/
theorem feed_replaces_saved_spectrum_witness :
    ((zoomSt1.feed 7 9 [1, 2, 3] 2).1.saved =
      { start := (7 : Int), endFreq := (9 : Int), data := [1, 2] }) :=
  feed_replaces_saved_spectrum zoomSt1 7 9 [1, 2, 3] 2 (by norm_num) (by norm_num)

/-- Pushing one control per gain onto the panel accumulates exactly the
mapped control list. -/
theorem gainControls_foldl (l : List GainInfo) (f : GainInfo → GainControl)
    (st : GainPanelState) :
    l.foldl (fun s g => { s with gainControls := s.gainControls ++ [f g] }) st
      = { st with gainControls := st.gainControls ++ l.map f } := by
  induction l generalizing st with
  | nil => simp
  | cons g rest ih => simp [ih]

/-- C8: PanoramicDialog::refreshGains removes all existing gain controls,
then creates exactly one control per device gain in list order, each
initialized from the persisted config value for (driver, gain name) when
present and from the gain default otherwise; a placeholder label is shown
exactly when the device has no gains. -/
theorem refreshGains_rebuilds_panel (cfg : PanoramicDialogConfig)
    (dev : Device) (st : GainPanelState) :
    (refreshGains cfg dev st).gainControls =
      dev.gains.map (mkGainControl cfg dev.driver) ∧
    (refreshGains cfg dev st).noGainLabel = decide (dev.gains = []) := by
  simp only [refreshGains, clearGains, gainControls_foldl dev.gains
    (mkGainControl cfg dev.driver)]
  cases dev.gains <;> simp

/-- Counterexample to C1 as stated: at zoomSt0 (device bounds [0, 110],
waterfall center 100, span 50) the zoom handler enters fixed-frequency
mode and recomputes the range from the waterfall center without
re-clamping, passing and emitting [75, 125] although 125 exceeds
getMaxFreq() = 110. -/
theorem zoom_bounds_counterexample :
    (zoomSt0.onNewZoomLevel).2.detail = some (75, 125, true) ∧
    (zoomSt0.onNewZoomLevel).2.wfRangeCall = some (75, 125) ∧
    PanState.getMaxFreq zoomSt0 = 110 ∧ ¬((125 : Int) ≤ 110) := by
  have htdiv : Int.tdiv 50 2 = 25 := by decide
  norm_num [PanState.onNewZoomLevel, zoomSt0, PanState.getMinFreq,
    PanState.getMaxFreq, PanState.getRelBw, PanState.setWfRange, htdiv]

/-- C1 (amended): the range passed to setWfRange and emitted via
detailChanged lies within the device-reported bounds whenever the handler
stays in sliding-range mode (fixedFreqMode false); in fixed-frequency
mode the range is recomputed from the waterfall center frequency and may
leave the bounds. -/
theorem zoom_bounds_sliding_mode (st : PanState) (mn mx : Int)
    (hd : (st.onNewZoomLevel).2.detail = some (mn, mx, false)) :
    PanState.getMinFreq st ≤ mn ∧ mx ≤ PanState.getMaxFreq st ∧
    (st.onNewZoomLevel).2.wfRangeCall = some (mn, mx) := by
  cases ha : st.adjustingRange with
  | true => simp [PanState.onNewZoomLevel, ha] at hd
  | false =>
      simp only [PanState.onNewZoomLevel, PanState.getMinFreq, PanState.getMaxFreq,
        PanState.getRelBw, ha, Bool.false_eq_true, if_false, Option.some.injEq,
        Prod.mk.injEq] at hd ⊢
      obtain ⟨h1, h2, h3⟩ := hd
      simp only [h3, Bool.false_eq_true, if_false] at h1 h2 ⊢
      refine ⟨?_, ?_, h1, h2⟩
      · split at h1 <;> omega
      · split at h2 <;> omega

/-- Witness for zoom_bounds_sliding_mode at zoomSt1, whose zoom event
stays in sliding-range mode and emits [40, 60] within bounds. -/
theorem zoom_bounds_sliding_mode_witness :
    PanState.getMinFreq zoomSt1 ≤ 40 ∧ (60 : Int) ≤ PanState.getMaxFreq zoomSt1 ∧
    (zoomSt1.onNewZoomLevel).2.wfRangeCall = some (40, 60) :=
  zoom_bounds_sliding_mode zoomSt1 40 60 (by
    have htdiv : Int.tdiv 20 2 = 10 := by decide
    norm_num [PanState.onNewZoomLevel, zoomSt1, PanState.getMinFreq,
      PanState.getMaxFreq, PanState.getRelBw, PanState.setWfRange, htdiv])

/-- The per-table band loop pushes exactly the bands whose
deserialization succeeds, in order. -/
theorem pushBandsLoop_spec (l : List FatVal) (fat : FrequencyAllocationTable) :
    pushBandsLoop fat l =
      { name := fat.name
        bands := fat.bands ++
          l.filterMap (fun o => (deserializeFrequencyBand o).toOption) } := by
  induction l generalizing fat with
  | nil => simp [pushBandsLoop]
  | cons o rest ih =>
      simp only [pushBandsLoop, List.foldl_cons] at ih ⊢
      cases h : deserializeFrequencyBand o with
      | ok b => simp [h, ih, Except.toOption]
      | error e => simp [h, ih, Except.toOption]

/-- Accumulated form of the deserializeFATs outer loop when every bands
field passes the SU_ATTEMPT set check. -/
theorem deserializeFATs_foldlM (srcs : List FatSrc) :
    ∀ acc : List FrequencyAllocationTable × List String,
      (∀ s ∈ srcs, s.bands ≠ BandsField.notSet) →
      srcs.foldlM fatStep acc =
        .ok (acc.1 ++ srcs.map (fun s => (processFat s.name (bandsElems s.bands)).1),
             acc.2 ++ srcs.map FatSrc.name) := by
  induction srcs with
  | nil =>
      intro acc _h
      simp only [List.foldlM_nil, List.map_nil, List.append_nil]
      rfl
  | cons s rest ih =>
      intro acc h
      have hs : s.bands ≠ BandsField.notSet := h s (by simp)
      cases hb : s.bands with
      | notSet => exact absurd hb hs
      | set l =>
          have hstep : fatStep acc s =
              .ok (acc.1 ++ [(processFat s.name l).1], acc.2 ++ [s.name]) := by
            simp [fatStep, hb, processFat]
          rw [List.foldlM_cons, hstep]
          show List.foldlM fatStep
            (acc.1 ++ [(processFat s.name l).1], acc.2 ++ [s.name]) rest = _
          rw [ih _ (fun t ht => h t (by simp [ht]))]
          simp [hb, bandsElems, processFat]

/-- C5: in MainSpectrum::deserializeFATs, a band whose deserialization
raises is the only band omitted — the other bands of the table are still
pushed, the table is still created and registered, and a newBandPlan
signal is still emitted for it. -/
theorem fat_band_errors_isolated :
    (∀ (name : String) (l1 : List FatVal) (o : FatVal) (l2 : List FatVal),
       deserializeFrequencyBand o = .error () →
       (processFat name (l1 ++ o :: l2)).1 = (processFat name (l1 ++ l2)).1) ∧
    (∀ (name : String) (l : List FatVal),
       (processFat name l).1.name = name ∧
       (processFat name l).2 = name ∧
       (processFat name l).1.bands =
         l.filterMap (fun o => (deserializeFrequencyBand o).toOption)) ∧
    (∀ srcs : List FatSrc, (∀ s ∈ srcs, s.bands ≠ BandsField.notSet) →
       deserializeFATs srcs =
         .ok (srcs.map (fun s => (processFat s.name (bandsElems s.bands)).1),
              srcs.map FatSrc.name)) := by
  refine ⟨fun name l1 o l2 ho => ?_, fun name l => ?_, fun srcs h => ?_⟩
  · simp [processFat, pushBandsLoop_spec, ho, Except.toOption]
  · simp [processFat, pushBandsLoop_spec]
  · simpa [deserializeFATs] using deserializeFATs_foldlM srcs ([], []) h

/-- Witness for fat_band_errors_isolated: a malformed middle band is
dropped while the table around it survives and its signal is emitted. -/
theorem fat_band_errors_isolated_witness :
    (processFat "HF" [FatVal.fobj [], FatVal.malformed, FatVal.fobj []]).1 =
      (processFat "HF" [FatVal.fobj [], FatVal.fobj []]).1 ∧
    deserializeFATs [⟨"HF", BandsField.set [FatVal.malformed]⟩] =
      .ok ([(processFat "HF" [FatVal.malformed]).1], ["HF"]) :=
  ⟨fat_band_errors_isolated.1 "HF" [FatVal.fobj []] FatVal.malformed
      [FatVal.fobj []] rfl,
   fat_band_errors_isolated.2.2 [⟨"HF", BandsField.set [FatVal.malformed]⟩]
      (by decide)⟩

/-- C6: SavedSpectrum::exportToFile returns false exactly when the output
file cannot be opened, writing nothing in that case; on success it writes
the stored start frequency as freqMin, the stored end frequency as
freqMax, and every stored sample in order into the PSD array.
PanoramicDialog::onExport shows a new file dialog after every failed
export and terminates only when an export succeeds or the user cancels. -/
theorem exportToFile_retry_loop (s : SavedSpectrum) :
    (∀ canOpen, (s.exportToFile canOpen).1 = canOpen) ∧
    (s.exportToFile false).2 = [] ∧
    SavedSpectrum.WriteItem.freqMinDecl s.start ∈ (s.exportToFile true).2 ∧
    SavedSpectrum.WriteItem.freqMaxDecl s.endFreq ∈ (s.exportToFile true).2 ∧
    (s.exportToFile true).2.filterMap SavedSpectrum.sampleValue = s.data ∧
    (∀ acts, (onExport s (.save false :: acts)).dialogs =
        (onExport s acts).dialogs + 1 ∧
      (onExport s (.save false :: acts)).warnings =
        (onExport s acts).warnings + 1 ∧
      (onExport s (.save false :: acts)).exported =
        (onExport s acts).exported) ∧
    (∀ acts, (onExport s acts).finished = true ↔
      ∃ a ∈ acts, a = UserAction.cancel ∨ a = UserAction.save true) := by
  refine ⟨fun canOpen => ?_, ?_, ?_, ?_, ?_, fun acts => ?_, fun acts => ?_⟩
  · cases canOpen <;> simp [SavedSpectrum.exportToFile]
  · simp [SavedSpectrum.exportToFile]
  · simp [SavedSpectrum.exportToFile]
  · simp [SavedSpectrum.exportToFile]
  · simp [SavedSpectrum.exportToFile, SavedSpectrum.sampleValue,
      List.filterMap_append, List.filterMap_map]
    exact List.filterMap_some s.data
  · simp [onExport, SavedSpectrum.exportToFile]
  · induction acts with
    | nil => simp [onExport]
    | cons a rest ih =>
        cases a with
        | cancel => simp [onExport]
        | save canOpen =>
            cases canOpen with
            | true => simp [onExport, SavedSpectrum.exportToFile]
            | false =>
                simp only [onExport, SavedSpectrum.exportToFile]
                simp [ih]


/-! ## Association-list and serialization lemmas -/

/-- Lookup after inserting a key finds the inserted value. -/
theorem alookup_mapInsert_self (k : String) (v : Rat)
    (m : List (String × Rat)) : alookup k (mapInsert k v m) = some v := by
  induction m with
  | nil => simp [mapInsert, alookup]
  | cons p rest ih =>
      by_cases h : p.1 = k
      · simp [mapInsert, h, alookup]
      · simp [mapInsert, h, alookup, ih]

/-- Inserting an absent key appends the binding. -/
theorem mapInsert_append (k : String) (v : Rat) (m : List (String × Rat))
    (h : alookup k m = none) : mapInsert k v m = m ++ [(k, v)] := by
  induction m with
  | nil => simp [mapInsert]
  | cons p rest ih =>
      by_cases hp : p.1 = k
      · simp [alookup, hp] at h
      · simp only [alookup, hp, if_false] at h
        simp [mapInsert, hp, ih h]

/-- Lookup skips a first block in which the key does not occur. -/
theorem alookup_append_of_none {α : Type} (k : String)
    (l1 l2 : List (String × α)) (h : alookup k l1 = none) :
    alookup k (l1 ++ l2) = alookup k l2 := by
  induction l1 with
  | nil => simp
  | cons p rest ih =>
      by_cases hp : p.1 = k
      · simp [alookup, hp] at h
      · simp only [alookup, hp, if_false] at h
        simp [alookup, hp, ih h]

/-- Lookup over the vf-tagged image of a gains map with distinct keys. -/
theorem alookup_map_vf (l : List (String × Rat)) (k : String) (v : Rat)
    (hnd : (l.map Prod.fst).Nodup) (hm : (k, v) ∈ l) :
    alookup k (l.map (fun p => (p.1, SVal.vf p.2))) = some (.vf v) := by
  induction l with
  | nil => simp at hm
  | cons q rest ih =>
      simp only [List.map_cons, List.nodup_cons] at hnd
      by_cases hq : q.1 = k
      · rcases List.mem_cons.mp hm with hh | ht
        · subst hh
          simp [alookup]
        · exact absurd (hq ▸ List.mem_map_of_mem Prod.fst ht) hnd.1
      · rcases List.mem_cons.mp hm with hh | ht
        · exact absurd (congrArg Prod.fst hh).symm hq
        · simp only [List.map_cons, alookup, hq, if_false]
          exact ih hnd.2 ht

/-- The gains-emission loop of serialize appends the tagged entries. -/
theorem foldl_objSet_eq (l : List (String × Rat)) (acc : SObject) :
    l.foldl (fun a p => objSet a p.1 (.vf p.2)) acc
      = acc ++ l.map (fun p => (p.1, SVal.vf p.2)) := by
  induction l generalizing acc with
  | nil => simp
  | cons p rest ih =>
      simp only [List.foldl_cons, List.map_cons]
      rw [ih]
      simp [objSet]

/-- serialize emits the eleven typed fields followed by the gains map. -/
theorem serialize_eq (c : PanoramicDialogConfig) :
    c.serialize = PanoramicDialogConfig.cfgFields c
      ++ c.gains.map (fun p => (p.1, SVal.vf p.2)) := by
  simp only [PanoramicDialogConfig.serialize]
  rw [foldl_objSet_eq]
  simp [objSet, PanoramicDialogConfig.cfgFields]

/-- Counterexample to C2 as stated: setGain(dev, g, v) does not store the
value under the key "dev.g" (device name, dot, gain name) — the code
prepends "gain.", so the only binding created is under "gain.dev.g". -/
theorem gain_key_counterexample :
    alookup "d.g" (cfgEmpty.setGain "d" "g" 1).gains = none ∧
    (cfgEmpty.setGain "d" "g" 1).gains = [("gain.d.g", 1)] := by
  constructor
  · simp [cfgEmpty, PanoramicDialogConfig.setGain, mapInsert, alookup]
  · simp [cfgEmpty, PanoramicDialogConfig.setGain, mapInsert]

/-- C2 (amended): per-device gain values are keyed by
"gain." ++ dev ++ "." ++ g — setGain records the value under that key,
getGain retrieves it (0 when absent), hasGain tests that key, and
serialize emits every gains-map entry under its map key. -/
theorem gain_key_storage (c : PanoramicDialogConfig) (dev g : String)
    (v : Rat) :
    alookup ("gain." ++ dev ++ "." ++ g) (c.setGain dev g v).gains = some v ∧
    (c.setGain dev g v).getGain dev g = v ∧
    (c.setGain dev g v).hasGain dev g = true ∧
    (c.hasGain dev g = false → c.getGain dev g = 0) ∧
    (∀ k val, (k, val) ∈ c.gains → (k, SVal.vf val) ∈ c.serialize) := by
  refine ⟨?_, ?_, ?_, ?_, ?_⟩
  · simp [PanoramicDialogConfig.setGain, alookup_mapInsert_self]
  · simp [PanoramicDialogConfig.getGain, PanoramicDialogConfig.setGain,
      alookup_mapInsert_self]
  · simp [PanoramicDialogConfig.hasGain, PanoramicDialogConfig.setGain,
      alookup_mapInsert_self]
  · intro h
    simp only [PanoramicDialogConfig.hasGain] at h
    cases hal : alookup ("gain." ++ dev ++ "." ++ g) c.gains with
    | none => simp [PanoramicDialogConfig.getGain, hal]
    | some w => rw [hal] at h; simp at h
  · intro k val hm
    rw [serialize_eq]
    exact List.mem_append_right _
      (List.mem_map_of_mem (fun p => (p.1, SVal.vf p.2)) hm)

/-- Witness for gain_key_storage: a stored gain is read back, and an
absent gain reads as 0. -/
theorem gain_key_storage_witness :
    (cfgEmpty.setGain "rtlsdr" "LNA" 20).getGain "rtlsdr" "LNA" = 20 ∧
    cfgEmpty.getGain "rtlsdr" "LNA" = 0 :=
  ⟨(gain_key_storage cfgEmpty "rtlsdr" "LNA" 20).2.1,
   (gain_key_storage cfgEmpty "rtlsdr" "LNA" 20).2.2.2.1
     (by simp [cfgEmpty, PanoramicDialogConfig.hasGain, alookup])⟩

/-- A key that starts with "gain." does not occur among the typed fields. -/
theorem alookup_cfgFields_gain (c : PanoramicDialogConfig) (k : String)
    (hk : k.take 5 = "gain.") :
    alookup k (PanoramicDialogConfig.cfgFields c) = none := by
  have hne : ∀ s : String, s.take 5 ≠ "gain." → ¬(s = k) :=
    fun s hs h => hs (by rw [h]; exact hk)
  have h01 : ¬("fullRange" = k) := hne "fullRange" (by decide)
  have h02 : ¬("rangeMin" = k) := hne "rangeMin" (by decide)
  have h03 : ¬("rangeMax" = k) := hne "rangeMax" (by decide)
  have h04 : ¬("panRangeMin" = k) := hne "panRangeMin" (by decide)
  have h05 : ¬("panRangeMax" = k) := hne "panRangeMax" (by decide)
  have h06 : ¬("lnbFreq" = k) := hne "lnbFreq" (by decide)
  have h07 : ¬("sampRate" = k) := hne "sampRate" (by decide)
  have h08 : ¬("device" = k) := hne "device" (by decide)
  have h09 : ¬("strategy" = k) := hne "strategy" (by decide)
  have h10 : ¬("partitioning" = k) := hne "partitioning" (by decide)
  have h11 : ¬("palette" = k) := hne "palette" (by decide)
  simp [PanoramicDialogConfig.cfgFields, alookup, h01, h02, h03, h04, h05,
    h06, h07, h08, h09, h10, h11]

/-- The gains loop of deserialize skips all eleven typed fields. -/
theorem foldl_gainField_cfgFields (conf : SObject)
    (c acc : PanoramicDialogConfig) :
    List.foldl (PanoramicDialogConfig.gainField conf) acc
      (PanoramicDialogConfig.cfgFields c) = acc := by
  have t01 : ¬("fullRange".take 5 = "gain.") := by decide
  have t02 : ¬("rangeMin".take 5 = "gain.") := by decide
  have t03 : ¬("rangeMax".take 5 = "gain.") := by decide
  have t04 : ¬("panRangeMin".take 5 = "gain.") := by decide
  have t05 : ¬("panRangeMax".take 5 = "gain.") := by decide
  have t06 : ¬("lnbFreq".take 5 = "gain.") := by decide
  have t07 : ¬("sampRate".take 5 = "gain.") := by decide
  have t08 : ¬("device".take 5 = "gain.") := by decide
  have t09 : ¬("strategy".take 5 = "gain.") := by decide
  have t10 : ¬("partitioning".take 5 = "gain.") := by decide
  have t11 : ¬("palette".take 5 = "gain.") := by decide
  simp [PanoramicDialogConfig.cfgFields, PanoramicDialogConfig.gainField,
    t01, t02, t03, t04, t05, t06, t07, t08, t09, t10, t11]

/-- The gains loop of deserialize rebuilds a disjoint gains map by
appending its entries in emission order. -/
theorem foldl_gainField_gains (conf : SObject) (l : List (String × Rat)) :
    ∀ acc : PanoramicDialogConfig,
      (∀ p ∈ l, (p.1).take 5 = "gain.") →
      (∀ p ∈ l, objGetF conf p.1 0 = p.2) →
      (∀ p ∈ l, alookup p.1 acc.gains = none) →
      (l.map Prod.fst).Nodup →
      List.foldl (PanoramicDialogConfig.gainField conf) acc
          (l.map (fun p => (p.1, SVal.vf p.2)))
        = { acc with gains := acc.gains ++ l } := by
  induction l with
  | nil => intro acc _ _ _ _; simp
  | cons p rest ih =>
      intro acc hpre hval hdisj hnd
      simp only [List.map_cons, List.foldl_cons]
      have hstep : PanoramicDialogConfig.gainField conf acc (p.1, SVal.vf p.2)
          = { acc with gains := acc.gains ++ [p] } := by
        simp only [PanoramicDialogConfig.gainField]
        rw [if_pos (hpre p (List.mem_cons_self p rest))]
        rw [hval p (List.mem_cons_self p rest),
          mapInsert_append p.1 p.2 acc.gains (hdisj p (List.mem_cons_self p rest))]
      rw [hstep]
      simp only [List.map_cons, List.nodup_cons] at hnd
      have hdisj' : ∀ q ∈ rest, alookup q.1 (acc.gains ++ [p]) = none := by
        intro q hq
        have h1 : alookup q.1 acc.gains = none :=
          hdisj q (List.mem_cons_of_mem p hq)
        have hne : ¬(p.1 = q.1) := fun h => hnd.1 (by
          rw [h]; exact List.mem_map_of_mem Prod.fst hq)
        rw [alookup_append_of_none q.1 acc.gains [p] h1]
        simp [alookup, hne]
      rw [ih { acc with gains := acc.gains ++ [p] }
        (fun q hq => hpre q (List.mem_cons_of_mem p hq))
        (fun q hq => hval q (List.mem_cons_of_mem p hq))
        hdisj' hnd.2]
      simp

/-- C3: deserializing the object produced by serialize into a fresh config
restores every persisted typed field and the whole gains map, for every
config whose gains map is well-formed (distinct keys, all carrying the
"gain." key prefix written by setGain). -/
theorem config_roundtrip (c fresh : PanoramicDialogConfig)
    (hfresh : fresh.gains = [])
    (hwf : ∀ p ∈ c.gains, (p.1).take 5 = "gain.")
    (hnd : (c.gains.map Prod.fst).Nodup) :
    fresh.deserialize c.serialize = c := by
  have hb1 : objGetB c.serialize "fullRange" fresh.fullRange = c.fullRange := by
    rw [serialize_eq]; rfl
  have hf1 : objGetF c.serialize "rangeMin" fresh.rangeMin = c.rangeMin := by
    rw [serialize_eq]; rfl
  have hf2 : objGetF c.serialize "rangeMax" fresh.rangeMax = c.rangeMax := by
    rw [serialize_eq]; rfl
  have hf3 : objGetF c.serialize "panRangeMin" fresh.panRangeMin = c.panRangeMin := by
    rw [serialize_eq]; rfl
  have hf4 : objGetF c.serialize "panRangeMax" fresh.panRangeMax = c.panRangeMax := by
    rw [serialize_eq]; rfl
  have hf5 : objGetF c.serialize "lnbFreq" fresh.lnbFreq = c.lnbFreq := by
    rw [serialize_eq]; rfl
  have hi1 : objGetI c.serialize "sampRate" fresh.sampRate = c.sampRate := by
    rw [serialize_eq]; rfl
  have hs1 : objGetS c.serialize "device" fresh.device = c.device := by
    rw [serialize_eq]; rfl
  have hs2 : objGetS c.serialize "strategy" fresh.strategy = c.strategy := by
    rw [serialize_eq]; rfl
  have hs3 : objGetS c.serialize "partitioning" fresh.partitioning = c.partitioning := by
    rw [serialize_eq]; rfl
  have hs4 : objGetS c.serialize "palette" fresh.palette = c.palette := by
    rw [serialize_eq]; rfl
  have hval : ∀ p ∈ c.gains,
      objGetF (PanoramicDialogConfig.cfgFields c
        ++ c.gains.map (fun p => (p.1, SVal.vf p.2))) p.1 0 = p.2 := by
    intro p hp
    unfold objGetF
    rw [alookup_append_of_none _ _ _ (alookup_cfgFields_gain c p.1 (hwf p hp))]
    rw [alookup_map_vf c.gains p.1 p.2 hnd hp]
  have hfold := foldl_gainField_gains
    (PanoramicDialogConfig.cfgFields c ++ c.gains.map (fun p => (p.1, SVal.vf p.2)))
    c.gains
    ⟨c.fullRange, c.rangeMin, c.rangeMax, c.panRangeMin, c.panRangeMax,
     c.lnbFreq, c.device, c.sampRate, c.strategy, c.partitioning, c.palette, []⟩
    hwf hval (fun p _ => rfl) hnd
  simp only [PanoramicDialogConfig.deserialize, hb1, hf1, hf2, hf3, hf4, hf5,
    hi1, hs1, hs2, hs3, hs4, hfresh]
  rw [serialize_eq, List.foldl_append, foldl_gainField_cfgFields, hfold]
  simp

/-- Witness for config_roundtrip on a populated sample config. -/
theorem config_roundtrip_witness :
    cfgEmpty.deserialize cfgSample.serialize = cfgSample :=
  config_roundtrip cfgSample cfgEmpty rfl (by decide) (by decide)
